import Mathlib

/-!
Verification development for the msl-research-tracker repository.

The repository ships a React frontend (Dashboard, ReliabilityBadge,
ScoringExplanationModal) and a Vercel proxy function; the backend
Therapeutic-Area-Aware Reliability Scoring Engine itself is not present in
the available sources, so its components (Journal Authority Table, Feature
Extractor, Weight Profile Resolver, Score Aggregator, Scoring Facade) are
modelled from the specification.  Frontend components are embedded directly
from their JavaScript sources.

Numeric values are embedded as rationals; JavaScript strings as `String`,
`undefined`-able values as `Option`.
-/

namespace MSL

/-! ## Scoring engine data model

Modelled from the spec: the backend scoring engine (sections 3-4 of the
spec) is absent from the available sources; every definition in this
section follows the spec text, with the numeric constants the spec leaves
as examples chosen once and documented here. -/

/-- The five scoring dimensions (spec section 2). -/
inductive Dim
  | authority
  | relevance
  | freshness
  | guideline
  | rigor
deriving DecidableEq, Repr

/-- Reliability bands (spec section 3). -/
inductive Band
  | high
  | moderate
  | exploratory
  | low
deriving DecidableEq, Repr

/-- Uncertainty labels (spec section 3). -/
inductive Uncertainty
  | low
  | medium
  | high
deriving DecidableEq, Repr

/-- Modelled from the spec: `JournalAuthorityRecord` (spec section 3). -/
structure JournalAuthorityRecord where
  journal_key : String
  base_authority : ℚ
  ta_overrides : List (String × ℚ)
  guideline_citations : List String
  specializations : List String
  peer_reviewed : Bool
deriving DecidableEq, Repr

/-- The Journal Authority Table: a read-only snapshot of records. -/
abbrev JournalTable := List JournalAuthorityRecord

/-- Modelled from the spec: `ArticleFeatures` (spec section 3).
`publication_date` is a day count; optional rigor signals are `Option`. -/
structure ArticleFeatures where
  journal_name : String
  publication_date : Int
  therapeutic_area : String
  abstract_present : Option Bool
  peer_reviewed : Option Bool
deriving DecidableEq, Repr

/-- JavaScript whitespace test for trimming. -/
def isWS (c : Char) : Bool := c = ' ' ∨ c = '\t' ∨ c = '\n' ∨ c = '\r'

/-- Embedding of string trimming (leading and trailing whitespace). -/
def trimChars (l : List Char) : List Char :=
  ((l.dropWhile isWS).reverse.dropWhile isWS).reverse

/-- Embedding of `trim()`. -/
def trimStr (s : String) : String := ⟨trimChars s.data⟩

/-- Embedding of `toLowerCase()`. -/
def toLowerStr (s : String) : String := ⟨s.data.map Char.toLower⟩

/-- Key canonicalization: case-insensitive, trimmed (spec section 4.1). -/
def normKey (s : String) : String := toLowerStr (trimStr s)

/-- Find the authority record for a journal name (spec section 4.1). -/
def findRecord (t : JournalTable) (j : String) : Option JournalAuthorityRecord :=
  t.find? (fun r => normKey r.journal_key = normKey j)

/-- Result of a Journal Authority Table lookup (spec section 4.1). -/
structure LookupResult where
  authority : ℚ
  has_guideline_presence : Bool
  found : Bool
deriving DecidableEq, Repr

/-- Modelled from the spec: the fixed non-zero default authority for
journals absent from the table (spec section 4.1, documented constant). -/
def defaultAuthority : ℚ := 30 / 100

/-- Modelled from the spec: `lookup(journal_name, therapeutic_area)`
(spec section 4.1): case-insensitive trimmed match; `ta_overrides` wins
over `base_authority`; absent journals get the default and never raise. -/
def lookup (t : JournalTable) (j ta : String) : LookupResult :=
  match findRecord t j with
  | none => ⟨defaultAuthority, false, false⟩
  | some r =>
    let a := match r.ta_overrides.find? (fun p => normKey p.1 = normKey ta) with
      | some p => p.2
      | none => r.base_authority
    ⟨a, !r.guideline_citations.isEmpty, true⟩

/-- Defensive clamp to [0,1] (spec section 4.2). -/
def clamp01 (q : ℚ) : ℚ := max 0 (min 1 q)

/-- Modelled from the spec: Freshness decay (spec section 4.2): full
credit within 30 days, linear decay to the 0.1 floor at 5 years. -/
def freshnessRaw (now pub : Int) : ℚ :=
  let age : ℚ := max 0 ((now - pub : Int) : ℚ)
  if age ≤ 30 then 1
  else if 1825 ≤ age then 1 / 10
  else 1 - (age - 30) * (9 / 10) / 1795

/-- Modelled from the spec: Relevance proxy (spec section 4.2):
specialized match 0.8, general-coverage journal 0.55, mismatch or
unknown journal 0.3. -/
def relevanceRaw (t : JournalTable) (j ta : String) : ℚ :=
  match findRecord t j with
  | none => 3 / 10
  | some r =>
    if r.specializations.any (fun s => normKey s = normKey ta) then 8 / 10
    else if r.specializations.isEmpty then 55 / 100
    else 3 / 10

/-- Modelled from the spec: Rigor (spec section 4.2): journal-tied
baseline, fixed 0.15 penalty per missing optional signal, 0.2 floor. -/
def rigorRaw (t : JournalTable) (a : ArticleFeatures) : ℚ :=
  let base : ℚ := match findRecord t a.journal_name with
    | some r => if r.peer_reviewed then 8 / 10 else 4 / 10
    | none => 6 / 10
  let missing : ℚ :=
    (if a.abstract_present.isNone then 1 else 0) +
    (if a.peer_reviewed.isNone then 1 else 0)
  max (2 / 10) (base - (15 / 100) * missing)

/-- Modelled from the spec: Guideline dimension (spec section 4.2):
1.0 on guideline presence, else the 0.1 baseline. -/
def guidelineRaw (t : JournalTable) (j ta : String) : ℚ :=
  if (lookup t j ta).has_guideline_presence then 1 else 1 / 10

/-- Modelled from the spec: the Feature Extractor (spec section 4.2);
all five raw dimension values, clamped to [0,1] defensively. -/
def rawFeatures (t : JournalTable) (now : Int) (a : ArticleFeatures) : Dim → ℚ :=
  fun d => clamp01 (match d with
    | .authority => (lookup t a.journal_name a.therapeutic_area).authority
    | .relevance => relevanceRaw t a.journal_name a.therapeutic_area
    | .freshness => freshnessRaw now a.publication_date
    | .guideline => guidelineRaw t a.journal_name a.therapeutic_area
    | .rigor => rigorRaw t a)

/-- Modelled from the spec: count of defaulted inputs folded into the
uncertainty label (spec section 4.4): journal not found, and each
missing optional rigor signal. -/
def defaultedCount (t : JournalTable) (a : ArticleFeatures) : ℕ :=
  (if (lookup t a.journal_name a.therapeutic_area).found then 0 else 1) +
  (if a.abstract_present.isNone then 1 else 0) +
  (if a.peer_reviewed.isNone then 1 else 0)

/-- Modelled from the spec: uncertainty from the defaulted-field count
(spec section 4.4): high for two or more, medium for exactly one. -/
def uncertaintyOf (n : ℕ) : Uncertainty :=
  if 2 ≤ n then .high else if n = 1 then .medium else .low

/-- A weight profile (spec section 3): use-case token plus one weight
per dimension. -/
structure WeightProfile where
  use_case : String
  weights : Dim → ℚ

/-- The clinical profile constants, as documented by the UI modal
(ScoringExplanationModal.js, Clinical Use Case percentages). -/
def clinicalProfile : WeightProfile :=
  ⟨"clinical", fun d => match d with
    | .authority => 45 / 100
    | .guideline => 25 / 100
    | .relevance => 20 / 100
    | .rigor => 5 / 100
    | .freshness => 5 / 100⟩

/-- The exploratory profile constants, as documented by the UI modal
(ScoringExplanationModal.js, Exploratory Use Case percentages). -/
def exploratoryProfile : WeightProfile :=
  ⟨"exploratory", fun d => match d with
    | .relevance => 40 / 100
    | .freshness => 25 / 100
    | .authority => 20 / 100
    | .rigor => 10 / 100
    | .guideline => 5 / 100⟩

/-- The two fixed profiles that ship by default (spec section 3). -/
def defaultProfiles : List WeightProfile := [clinicalProfile, exploratoryProfile]

/-- The error message for an unrecognized use case, naming the token
(spec section 4.3). -/
def configErrorMsg (uc : String) : String :=
  "ConfigurationError: unrecognized use_case " ++ uc

/-- Modelled from the spec: the Weight Profile Resolver (spec section
4.3): case-insensitive exact match against the closed set; unrecognized
tokens fail with a ConfigurationError naming the token. -/
def resolve (uc : String) : Except String WeightProfile :=
  if toLowerStr uc = "clinical" then .ok clinicalProfile
  else if toLowerStr uc = "exploratory" then .ok exploratoryProfile
  else .error (configErrorMsg uc)

/-- The weighted sum over the five dimensions (spec section 4.4). -/
def weightedSum (w raw : Dim → ℚ) : ℚ :=
  w .authority * raw .authority + w .relevance * raw .relevance +
  w .freshness * raw .freshness + w .guideline * raw .guideline +
  w .rigor * raw .rigor

/-- Rounding to 3 decimal places (spec sections 3 and 4.4). -/
def round3 (q : ℚ) : ℚ := (round (q * 1000) : ℚ) / 1000

/-- Band from the fixed inclusive-lower-bound thresholds (spec section
4.4): high at 0.80, moderate at 0.60, exploratory at 0.40, low below. -/
def bandOf (s : ℚ) : Band :=
  if 80 / 100 ≤ s then .high
  else if 60 / 100 ≤ s then .moderate
  else if 40 / 100 ≤ s then .exploratory
  else .low

/-- Fixed dimension priority order for reason tie-breaks (spec section
4.4): authority, guideline, relevance, rigor, freshness. -/
def dimPriority : List Dim := [.authority, .guideline, .relevance, .rigor, .freshness]

/-- Stable descending insertion for contribution sorting (spec section
4.4): a new entry goes before the first strictly smaller contribution. -/
def insertDesc (x : Dim × ℚ) : List (Dim × ℚ) → List (Dim × ℚ)
  | [] => [x]
  | y :: ys => if y.2 < x.2 then x :: y :: ys else y :: insertDesc x ys

/-- Sort contributions descending, stably over the priority order. -/
def sortContribs (l : List (Dim × ℚ)) : List (Dim × ℚ) := l.foldr insertDesc []

/-- Templated reason text per dimension (spec section 4.4). -/
def reasonText : Dim → String
  | .authority => "Specialized authority in therapeutic area"
  | .relevance => "Strong domain relevance"
  | .freshness => "Recent publication"
  | .guideline => "Cited by clinical guidelines"
  | .rigor => "High methodological rigor"

/-- Modelled from the spec: reasons are the top three weighted
contributions in descending order with the fixed priority tie-break
(spec section 4.4). -/
def reasonsFor (w raw : Dim → ℚ) : List String :=
  ((sortContribs (dimPriority.map (fun d => (d, w d * raw d)))).take 3).map
    (fun p => reasonText p.1)

/-- The engine output record (spec section 3). -/
structure ReliabilityResult where
  score : ℚ
  band : Band
  reasons : List String
  uncertainty : Uncertainty
  use_case_echo : String
deriving DecidableEq, Repr

/-- Modelled from the spec: the Score Aggregator (spec section 4.4):
weighted sum, clamped and rounded; band from thresholds; uncertainty
from the defaulted count; use-case echo from the profile. -/
def aggregate (raw : Dim → ℚ) (w : WeightProfile) (defaulted : ℕ) : ReliabilityResult :=
  let s := round3 (clamp01 (weightedSum w.weights raw))
  ⟨s, bandOf s, reasonsFor w.weights raw, uncertaintyOf defaulted, w.use_case⟩

/-- Modelled from the spec: the Scoring Facade (spec section 4.5),
composing resolver, extractor and aggregator; the only error path is
the unrecognized use-case token. -/
def scoreFacade (t : JournalTable) (now : Int) (a : ArticleFeatures)
    (uc : String) : Except String ReliabilityResult :=
  match resolve uc with
  | .error e => .error e
  | .ok w => .ok (aggregate (rawFeatures t now a) w (defaultedCount t a))

/-! ## UI documentation constants (ScoringExplanationModal.js)

The modal documents the band percentage ranges and the per-use-case
weight percentages to users; these lists embed those literals. -/

/-- The band ranges the modal shows (name, low percent, high percent),
from the Reliability Bands grid: High 80-100%, Moderate 60-79%,
Exploratory 40-59%, Low 0-39%. -/
def uiBands : List (String × ℕ × ℕ) :=
  [("High", 80, 100), ("Moderate", 60, 79), ("Exploratory", 40, 59), ("Low", 0, 39)]

/-- Map a modal band name to the engine band. -/
def bandNamed (s : String) : Band :=
  if s = "High" then .high
  else if s = "Moderate" then .moderate
  else if s = "Exploratory" then .exploratory
  else .low

/-- Clinical weight percentages the modal documents (Authority 45,
Guideline 25, Relevance 20, Rigor 5, Freshness 5). -/
def uiClinicalPercent : Dim → ℕ
  | .authority => 45
  | .guideline => 25
  | .relevance => 20
  | .rigor => 5
  | .freshness => 5

/-- Exploratory weight percentages the modal documents (Relevance 40,
Freshness 25, Authority 20, Rigor 10, Guideline 5). -/
def uiExploratoryPercent : Dim → ℕ
  | .relevance => 40
  | .freshness => 25
  | .authority => 20
  | .rigor => 10
  | .guideline => 5

/-! ## Dashboard search cache key (Dashboard.js, buildSearchKey)

`buildSearchKey` is `JSON.stringify` of the object literal
`\x7b therapeutic_area, days_back, use_case, search_mode \x7d` with the
therapeutic area trimmed and lowercased.  `JSON.stringify` is embedded
for this record shape: fixed key order, string values quote- and
backslash-escaped, the number serialized in decimal.  (Control-character
escaping is omitted; it affects neither key disambiguation nor any
property proved here.) -/

/-- The parameters `runSearch` receives (Dashboard.js). -/
structure SearchParams where
  therapeutic_area : String
  days_back : ℕ
  use_case : String
  search_mode : String
deriving DecidableEq, Repr

/-- JSON escape of one string character. -/
def escChar (c : Char) : List Char :=
  if c = '"' then ['\\', '"'] else if c = '\\' then ['\\', '\\'] else [c]

/-- JSON escape of a string body. -/
def escStr : List Char → List Char
  | [] => []
  | c :: s => escChar c ++ escStr s

/-- Decimal digit character. -/
def digitChar (d : ℕ) : Char := Char.ofNat (48 + d)

/-- Little-endian decimal digits, with 0 rendered as a single digit. -/
def natDigitsNE (n : ℕ) : List ℕ := if n = 0 then [0] else Nat.digits 10 n

/-- Decimal serialization of a natural number, as `JSON.stringify`
renders a non-negative integer. -/
def natToString (n : ℕ) : List Char := ((natDigitsNE n).map digitChar).reverse

/-- Literal key-string fragments of the stringified cache-key object. -/
def litTA : List Char := "\x7b\"therapeutic_area\":\"".data

/-- Fragment between the therapeutic-area value and the day count. -/
def litDB : List Char := ",\"days_back\":".data

/-- Fragment between the day count and the use-case value. -/
def litUC : List Char := ",\"use_case\":\"".data

/-- Fragment between the use-case value and the search-mode value. -/
def litSM : List Char := ",\"search_mode\":\"".data

/-- Closing fragment of the stringified cache-key object. -/
def litEnd : List Char := "\"\x7d".data

/-- Dashboard.js `buildSearchKey`: the JSON string of the normalized
search parameters, with the fixed field order of the object literal. -/
def buildSearchKey (p : SearchParams) : List Char :=
  litTA ++ escStr (toLowerStr (trimStr p.therapeutic_area)).data ++ '"' :: litDB ++
  natToString p.days_back ++ litUC ++ escStr p.use_case.data ++ '"' :: litSM ++
  escStr p.search_mode.data ++ litEnd

/-- Escape-aware parsing of a JSON string body: the flag records a
pending backslash escape. -/
def parseJsonStrAux : Bool → List Char → Option (List Char × List Char)
  | _, [] => none
  | true, c :: rest => (parseJsonStrAux false rest).map fun p => (c :: p.1, p.2)
  | false, c :: rest =>
    if c = '"' then some ([], rest)
    else if c = '\\' then parseJsonStrAux true rest
    else (parseJsonStrAux false rest).map fun p => (c :: p.1, p.2)

/-- Escape-aware parser for a JSON string body up to its closing quote;
returns the unescaped body and the remainder. -/
def parseJsonStr (l : List Char) : Option (List Char × List Char) :=
  parseJsonStrAux false l

/-- Drop an expected literal prefix. -/
def parseLit : List Char → List Char → Option (List Char)
  | [], s => some s
  | _ :: _, [] => none
  | c :: cs, d :: ds => if d = c then parseLit cs ds else none

/-- Split a number token at the first comma. -/
def parseNum (l : List Char) : List Char × List Char :=
  (l.takeWhile (fun c => c ≠ ','), l.dropWhile (fun c => c ≠ ','))

/-- Decode the four components back out of a cache-key string. -/
def parseKey (k : List Char) :
    Option (List Char × List Char × List Char × List Char) :=
  match parseLit litTA k with
  | none => none
  | some r1 =>
    match parseJsonStr r1 with
    | none => none
    | some (ta, r2) =>
      match parseLit litDB r2 with
      | none => none
      | some r3 =>
        match parseLit litUC (parseNum r3).2 with
        | none => none
        | some r4 =>
          match parseJsonStr r4 with
          | none => none
          | some (uc, r5) =>
            match parseLit litSM r5 with
            | none => none
            | some r6 =>
              match parseJsonStr r6 with
              | none => none
              | some (sm, _) => some (ta, (parseNum r3).1, uc, sm)

/-! ## Dashboard search cache (Dashboard.js, runSearch lines 77-84)

The cache is a `Map` keyed by `buildSearchKey`; on a hit the stored
payload is returned without a request, on a miss the server response is
stored under the key.  The payload type is abstract. -/

/-- `Map.get`-style lookup in an association-list cache model; newest
entry first, matching `Map.set` overwrite semantics. -/
def cacheLookup {α : Type} (cache : List (List Char × α)) (k : List Char) : Option α :=
  (cache.find? (fun e => e.1 = k)).map (fun e => e.2)

/-- `Map.set` on the association-list cache model. -/
def cacheInsert {α : Type} (cache : List (List Char × α)) (k : List Char) (v : α) :
    List (List Char × α) :=
  (k, v) :: cache

/-- One `runSearch` invocation against the cache: return the cached
payload on a hit, otherwise request and memoize (Dashboard.js). -/
def runSearchStep {α : Type} (server : SearchParams → α)
    (cache : List (List Char × α)) (p : SearchParams) :
    α × List (List Char × α) :=
  match cacheLookup cache (buildSearchKey p) with
  | some v => (v, cache)
  | none => (server p, cacheInsert cache (buildSearchKey p) (server p))

/-- A cache is consistent with the server when every stored entry equals
the server response for any parameters producing that key. -/
def CacheConsistent {α : Type} (server : SearchParams → α)
    (cache : List (List Char × α)) : Prop :=
  ∀ p v, cacheLookup cache (buildSearchKey p) = some v → v = server p

/-! ## Dashboard use-case state machine (Dashboard.js)

State fields and initial values from the `useState` declarations;
events are the UI interactions that touch them.  A `clickSearch` or
toggle event carries the oracle bit for the local-search 404 fallback,
which re-issues the request against PubMed with the same body. -/

/-- Dashboard component state relevant to search requests. -/
structure DashState where
  useCase : String
  searchTerm : String
  daysBack : ℕ
  searchMode : String
deriving DecidableEq, Repr

/-- Initial state: `useState('clinical')`, `useState('')`, `useState(7)`,
`useState('pubmed')`. -/
def initState : DashState := ⟨"clinical", "", 7, "pubmed"⟩

/-- A search request body as `runSearch` posts it. -/
structure SearchRequest where
  therapeutic_area : String
  days_back : ℕ
  use_case : String
deriving DecidableEq, Repr

/-- UI events affecting search state or issuing requests. -/
inductive DashEvent
  | setTerm (s : String)
  | setDays (n : ℕ)
  | setModePubmed
  | toggleClinical (localFails : Bool)
  | toggleExploratory (localFails : Bool)
  | clickSearch (localFails : Bool)
deriving DecidableEq, Repr

/-- The request bodies one `runSearch` call constructs: nothing for a
blank term; otherwise the request, plus the 404-fallback re-issue with
the identical body when local search fails. -/
def runSearchRequests (term : String) (days : ℕ) (uc mode : String)
    (localFails : Bool) : List SearchRequest :=
  if trimStr term = "" then []
  else [⟨trimStr term, days, uc⟩] ++
    (if mode = "local" ∧ localFails then [⟨trimStr term, days, uc⟩] else [])

/-- One Dashboard step: the next state and the request bodies issued.
`handleUseCaseToggle` stores the new token and searches with it
verbatim; `handleSearch` searches with the current token. -/
def dashStep (s : DashState) (e : DashEvent) : DashState × List SearchRequest :=
  match e with
  | .setTerm t => ({ s with searchTerm := t }, [])
  | .setDays n => ({ s with daysBack := n }, [])
  | .setModePubmed => ({ s with searchMode := "pubmed" }, [])
  | .toggleClinical lf =>
    ({ s with useCase := "clinical" },
      runSearchRequests s.searchTerm s.daysBack "clinical" s.searchMode lf)
  | .toggleExploratory lf =>
    ({ s with useCase := "exploratory" },
      runSearchRequests s.searchTerm s.daysBack "exploratory" s.searchMode lf)
  | .clickSearch lf =>
    (s, runSearchRequests s.searchTerm s.daysBack s.useCase s.searchMode lf)

/-! ## ReliabilityBadge (ReliabilityBadge.js)

The component returns `null` when `reliability_score` or
`reliability_band` is falsy; otherwise it renders a badge.  JavaScript
falsiness for the two props: `undefined`/`null` (here `none`), the
number 0, and the empty string. -/

/-- Badge props; `undefined` props are `none`. -/
structure BadgeProps where
  reliability_score : Option ℚ
  reliability_band : Option String
  uncertainty : Option String
  compact : Bool
deriving DecidableEq, Repr

/-- JavaScript falsiness of an optional number prop. -/
def numFalsy : Option ℚ → Bool
  | none => true
  | some q => q = 0

/-- JavaScript falsiness of an optional string prop. -/
def strFalsy : Option String → Bool
  | none => true
  | some s => s = ""

/-- `getBandColor` (ReliabilityBadge.js). -/
def getBandColor (band : String) : String :=
  if toLowerStr band = "high" then "bg-blue-700 text-white"
  else if toLowerStr band = "moderate" then "bg-sky-500 text-white"
  else if toLowerStr band = "exploratory" then "bg-orange-400 text-white"
  else if toLowerStr band = "low" then "bg-gray-400 text-white"
  else "bg-gray-400 text-white"

/-- What a rendered badge displays. -/
structure RenderedBadge where
  colorClass : String
  percent : ℤ
  bandLabel : String
  compact : Bool
deriving DecidableEq, Repr

/-- ReliabilityBadge render function: `null` (here `none`) when either
reliability prop is falsy, else the badge with `Math.round(score*100)`. -/
def ReliabilityBadge (p : BadgeProps) : Option RenderedBadge :=
  if numFalsy p.reliability_score ∨ strFalsy p.reliability_band then none
  else
    some ⟨getBandColor (p.reliability_band.getD ""),
      round ((p.reliability_score.getD 0) * 100),
      p.reliability_band.getD "", p.compact⟩

/-! ## Vercel proxy handler (frontend/api/[...path].js)

The handler checks the two environment variables for truthiness, then
builds the upstream request: headers copied minus hop-by-hop ones, then
`X-Edge-Auth`, `X-Forwarded-Proto` and `X-Forwarded-For` set on top.
`Headers.set` normalizes names to lowercase and replaces. -/

/-- The two environment variables; `none` is unset. -/
structure ProxyEnv where
  BACKEND_BASE : Option String
  EDGE_SECRET : Option String
deriving DecidableEq, Repr

/-- JavaScript truthiness of an environment variable. -/
def envTruthy : Option String → Bool
  | none => false
  | some s => !(s = "")

/-- The incoming request as the handler reads it. -/
structure ProxyRequest where
  method : String
  url : String
  headers : List (String × String)
  pathSegs : List String
deriving DecidableEq, Repr

/-- Hop-by-hop header names skipped while copying. -/
def hopByHop : List String :=
  ["host", "connection", "upgrade", "proxy-authenticate",
   "proxy-authorization", "te", "trailers", "transfer-encoding"]

/-- `Headers.set`: lowercase the name, replace any existing entry. -/
def headersSet (hs : List (String × String)) (k v : String) :
    List (String × String) :=
  hs.filter (fun e => e.1 ≠ toLowerStr k) ++ [(toLowerStr k, v)]

/-- `Headers.get`-style lookup by lowercased name. -/
def headersGet (hs : List (String × String)) (k : String) : Option String :=
  (hs.find? (fun e => e.1 = toLowerStr k)).map (fun e => e.2)

/-- The upstream header construction: copy non-hop-by-hop request
headers, then inject the edge-auth and forwarding headers. -/
def buildUpstreamHeaders (req : ProxyRequest) (secret : String) :
    List (String × String) :=
  let copied := req.headers.foldl
    (fun acc kv =>
      if hopByHop.contains (toLowerStr kv.1) then acc
      else headersSet acc kv.1 kv.2) []
  let xff := (headersGet req.headers "x-forwarded-for").getD "unknown"
  headersSet (headersSet (headersSet copied "X-Edge-Auth" secret)
    "X-Forwarded-Proto" "https") "X-Forwarded-For" xff

/-- The query-string suffix of the request URL, from the first `?`. -/
def queryChars : List Char → List Char
  | [] => []
  | c :: r => if c = '?' then c :: r else queryChars r

/-- The destination URL: base, slash-joined path, query string; no
extra slash when the path is empty. -/
def destinationUrl (base : String) (segs : List String) (url : String) : String :=
  let targetPath := String.intercalate "/" segs
  let query : String := ⟨queryChars url.data⟩
  if targetPath = "" then base ++ query else base ++ "/" ++ targetPath ++ query

/-- What the request to the backend looks like. -/
structure UpstreamRequest where
  url : String
  method : String
  headers : List (String × String)
deriving DecidableEq, Repr

/-- The handler either responds directly (no upstream request) or
forwards one upstream request. -/
inductive ProxyOutcome
  | respond (status : ℕ) (errorBody : String)
  | forward (u : UpstreamRequest)
deriving DecidableEq, Repr

/-- The Vercel handler: misconfiguration check first, then the proxied
request with the injected secret header. -/
def handler (env : ProxyEnv) (req : ProxyRequest) : ProxyOutcome :=
  if ¬(envTruthy env.BACKEND_BASE ∧ envTruthy env.EDGE_SECRET) then
    .respond 500 "Server misconfiguration"
  else
    match env.BACKEND_BASE, env.EDGE_SECRET with
    | some base, some secret =>
      .forward ⟨destinationUrl base req.pathSegs req.url, req.method,
        buildUpstreamHeaders req secret⟩
    | _, _ => .respond 500 "Server misconfiguration"

/-! ## Helper lemmas -/

theorem clamp01_nonneg (q : ℚ) : 0 ≤ clamp01 q := le_max_left 0 _

theorem clamp01_le_one (q : ℚ) : clamp01 q ≤ 1 :=
  max_le (by norm_num) (min_le_left 1 q)

theorem round3_nonneg {q : ℚ} (h : 0 ≤ q) : 0 ≤ round3 q := by
  unfold round3
  have hz : (0 : ℤ) ≤ round (q * 1000) := by
    rw [round_eq]
    exact Int.le_floor.mpr (by push_cast; linarith)
  exact div_nonneg (by exact_mod_cast hz) (by norm_num)

theorem round3_le_one {q : ℚ} (h : q ≤ 1) : round3 q ≤ 1 := by
  unfold round3
  have hz : round (q * 1000) ≤ 1000 := by
    rw [round_eq]
    have : (⌊q * 1000 + 1 / 2⌋ : ℤ) ≤ ⌊(1000 : ℚ) + 1 / 2⌋ :=
      Int.floor_mono (by linarith)
    have h2 : (⌊(1000 : ℚ) + 1 / 2⌋ : ℤ) = 1000 := by
      rw [Int.floor_eq_iff]
      norm_num
    omega
  rw [div_le_one (by norm_num)]
  exact_mod_cast hz

theorem uncertaintyOf_ne_low {n : ℕ} (h : 1 ≤ n) : uncertaintyOf n ≠ .low := by
  unfold uncertaintyOf
  split_ifs with h1 h2 <;> simp_all <;> omega

/-! ## Claim theorems -/

/-- C1: the band is derived from the score by fixed inclusive-lower-bound
thresholds (high at 0.80, moderate at 0.60, exploratory at 0.40, low
below), boundary values belong to the higher band, and the band ranges
the ScoringExplanationModal documents (High 80-100%, Moderate 60-79%,
Exploratory 40-59%, Low 0-39%) agree with these thresholds at every
integer percentage. -/
theorem claim_C1 :
    (∀ s : ℚ,
      (bandOf s = Band.high ↔ 80 / 100 ≤ s) ∧
      (bandOf s = Band.moderate ↔ 60 / 100 ≤ s ∧ s < 80 / 100) ∧
      (bandOf s = Band.exploratory ↔ 40 / 100 ≤ s ∧ s < 60 / 100) ∧
      (bandOf s = Band.low ↔ s < 40 / 100)) ∧
    (∀ n : Fin 101, ∀ b ∈ uiBands,
      (b.2.1 ≤ n.val ∧ n.val ≤ b.2.2) ↔
        bandOf ((n.val : ℚ) / 100) = bandNamed b.1) := by
  have hthr : ∀ s : ℚ,
      (bandOf s = Band.high ↔ 80 / 100 ≤ s) ∧
      (bandOf s = Band.moderate ↔ 60 / 100 ≤ s ∧ s < 80 / 100) ∧
      (bandOf s = Band.exploratory ↔ 40 / 100 ≤ s ∧ s < 60 / 100) ∧
      (bandOf s = Band.low ↔ s < 40 / 100) := by
    intro s
    unfold bandOf
    split_ifs with h1 h2 h3 <;>
      refine ⟨?_, ?_, ?_, ?_⟩ <;>
      simp only [eq_self_iff_true, true_iff, iff_true, reduceCtorEq, false_iff,
        iff_false, not_and, not_lt, not_le] <;>
      first
        | linarith
        | (constructor <;> linarith)
        | (intro h; linarith)
  refine ⟨hthr, ?_⟩
  intro n b hb
  simp only [uiBands, List.mem_cons, List.not_mem_nil, or_false] at hb
  have hle : n.val ≤ 100 := n.is_le
  rcases hb with rfl | rfl | rfl | rfl
  · rw [show bandNamed "High" = Band.high from rfl, (hthr _).1]
    dsimp only
    constructor
    · rintro ⟨h1, _⟩
      have h1q : (80 : ℚ) ≤ (n.val : ℚ) := by exact_mod_cast h1
      linarith
    · intro h
      have h1q : (80 : ℚ) ≤ (n.val : ℚ) := by linarith
      exact ⟨by exact_mod_cast h1q, hle⟩
  · rw [show bandNamed "Moderate" = Band.moderate from rfl, (hthr _).2.1]
    dsimp only
    constructor
    · rintro ⟨h1, h2⟩
      have h1q : (60 : ℚ) ≤ (n.val : ℚ) := by exact_mod_cast h1
      have h2q : (n.val : ℚ) ≤ 79 := by exact_mod_cast h2
      exact ⟨by linarith, by linarith⟩
    · rintro ⟨h1, h2⟩
      have h1q : (60 : ℚ) ≤ (n.val : ℚ) := by linarith
      have h2q : (n.val : ℚ) < 80 := by linarith
      have h2n : n.val < 80 := by exact_mod_cast h2q
      exact ⟨by exact_mod_cast h1q, by omega⟩
  · rw [show bandNamed "Exploratory" = Band.exploratory from rfl, (hthr _).2.2.1]
    dsimp only
    constructor
    · rintro ⟨h1, h2⟩
      have h1q : (40 : ℚ) ≤ (n.val : ℚ) := by exact_mod_cast h1
      have h2q : (n.val : ℚ) ≤ 59 := by exact_mod_cast h2
      exact ⟨by linarith, by linarith⟩
    · rintro ⟨h1, h2⟩
      have h1q : (40 : ℚ) ≤ (n.val : ℚ) := by linarith
      have h2q : (n.val : ℚ) < 60 := by linarith
      have h2n : n.val < 60 := by exact_mod_cast h2q
      exact ⟨by exact_mod_cast h1q, by omega⟩
  · rw [show bandNamed "Low" = Band.low from rfl, (hthr _).2.2.2]
    dsimp only
    constructor
    · rintro ⟨_, h2⟩
      have h2q : (n.val : ℚ) ≤ 39 := by exact_mod_cast h2
      linarith
    · intro h
      have h2q : (n.val : ℚ) < 40 := by linarith
      have h2n : n.val < 40 := by exact_mod_cast h2q
      exact ⟨Nat.zero_le _, by omega⟩

/-- C1 witness: the 0.80 boundary belongs to the high band and the
modal's High range contains it. -/
theorem claim_C1_witness :
    ("High", 80, 100) ∈ uiBands ∧
    ((("High", 80, 100) : String × ℕ × ℕ).2.1 ≤ (80 : Fin 101).val ∧
        (80 : Fin 101).val ≤ (("High", 80, 100) : String × ℕ × ℕ).2.2 ↔
      bandOf (((80 : Fin 101).val : ℚ) / 100) = bandNamed ("High", 80, 100).1) :=
  ⟨by decide, claim_C1.2 (80 : Fin 101) ("High", 80, 100) (by decide)⟩

/-- C2: exactly the two fixed default weight profiles, with the
documented constants (clinical 45/25/20/5/5 over authority, guideline,
relevance, rigor, freshness; exploratory 40/25/20/10/5 over relevance,
freshness, authority, rigor, guideline), every weight nonnegative, each
profile summing exactly to 1 (hence within the 1e-6 tolerance), and the
constants agreeing with the percentages the modal documents. -/
theorem claim_C2 :
    defaultProfiles = [clinicalProfile, exploratoryProfile] ∧
    defaultProfiles.length = 2 ∧
    clinicalProfile.use_case = "clinical" ∧
    exploratoryProfile.use_case = "exploratory" ∧
    (∀ d, 0 ≤ clinicalProfile.weights d ∧ 0 ≤ exploratoryProfile.weights d) ∧
    weightedSum clinicalProfile.weights (fun _ => 1) = 1 ∧
    weightedSum exploratoryProfile.weights (fun _ => 1) = 1 ∧
    |weightedSum clinicalProfile.weights (fun _ => 1) - 1| ≤ 1 / 1000000 ∧
    |weightedSum exploratoryProfile.weights (fun _ => 1) - 1| ≤ 1 / 1000000 ∧
    (∀ d, clinicalProfile.weights d = (uiClinicalPercent d : ℚ) / 100 ∧
      exploratoryProfile.weights d = (uiExploratoryPercent d : ℚ) / 100) ∧
    clinicalProfile.weights .authority = 45 / 100 ∧
    clinicalProfile.weights .guideline = 25 / 100 ∧
    clinicalProfile.weights .relevance = 20 / 100 ∧
    clinicalProfile.weights .rigor = 5 / 100 ∧
    clinicalProfile.weights .freshness = 5 / 100 ∧
    exploratoryProfile.weights .relevance = 40 / 100 ∧
    exploratoryProfile.weights .freshness = 25 / 100 ∧
    exploratoryProfile.weights .authority = 20 / 100 ∧
    exploratoryProfile.weights .rigor = 10 / 100 ∧
    exploratoryProfile.weights .guideline = 5 / 100 := by
  refine ⟨rfl, rfl, rfl, rfl, fun d => ?_, by norm_num [weightedSum, clinicalProfile],
    by norm_num [weightedSum, exploratoryProfile],
    by norm_num [weightedSum, clinicalProfile],
    by norm_num [weightedSum, exploratoryProfile],
    fun d => ?_, rfl, rfl, rfl, rfl, rfl, rfl, rfl, rfl, rfl, rfl⟩
  · cases d <;> norm_num [clinicalProfile, exploratoryProfile]
  · cases d <;> norm_num [clinicalProfile, exploratoryProfile,
      uiClinicalPercent, uiExploratoryPercent]

/-- C3: for every article and recognized use case, the returned score is
the weighted sum over the five dimensions, clamped to [0,1] and rounded
to 3 decimal places (and therefore itself in [0,1]). -/
theorem claim_C3 :
    ∀ (t : JournalTable) (now : Int) (a : ArticleFeatures) (uc : String)
      (w : WeightProfile), resolve uc = .ok w →
    ∃ r, scoreFacade t now a uc = .ok r ∧
      r.score = round3 (clamp01 (weightedSum w.weights (rawFeatures t now a))) ∧
      0 ≤ r.score ∧ r.score ≤ 1 := by
  intro t now a uc w h
  refine ⟨aggregate (rawFeatures t now a) w (defaultedCount t a), ?_, rfl, ?_, ?_⟩
  · simp [scoreFacade, h]
  · exact round3_nonneg (clamp01_nonneg _)
  · exact round3_le_one (clamp01_le_one _)

/-- C3 witness: concrete evaluation at the clinical profile. -/
theorem claim_C3_witness :
    resolve "clinical" = .ok clinicalProfile ∧
    ∃ r, scoreFacade [] 0 ⟨"JCO", 0, "oncology", some true, some true⟩ "clinical" = .ok r ∧
      r.score = round3 (clamp01 (weightedSum clinicalProfile.weights
        (rawFeatures [] 0 ⟨"JCO", 0, "oncology", some true, some true⟩))) ∧
      0 ≤ r.score ∧ r.score ≤ 1 :=
  ⟨rfl, claim_C3 [] 0 ⟨"JCO", 0, "oncology", some true, some true⟩ "clinical"
    clinicalProfile rfl⟩

/-- C5: the facade fails if and only if the use-case token is not a
case-insensitive member of the closed set, the error names the token,
and for a recognized token scoring always succeeds, for every article
and table. -/
theorem claim_C5 :
    ∀ (t : JournalTable) (now : Int) (a : ArticleFeatures) (uc : String),
    ((∃ e, scoreFacade t now a uc = .error e) ↔
      ¬(toLowerStr uc = "clinical" ∨ toLowerStr uc = "exploratory")) ∧
    (¬(toLowerStr uc = "clinical" ∨ toLowerStr uc = "exploratory") →
      scoreFacade t now a uc = .error (configErrorMsg uc)) ∧
    ((toLowerStr uc = "clinical" ∨ toLowerStr uc = "exploratory") →
      ∃ r, scoreFacade t now a uc = .ok r) := by
  intro t now a uc
  by_cases h1 : toLowerStr uc = "clinical"
  · simp [scoreFacade, resolve, h1]
  · by_cases h2 : toLowerStr uc = "exploratory"
    · simp [scoreFacade, resolve, h1, h2]
    · simp [scoreFacade, resolve, h1, h2]

/-- C5 witness: a mixed-case recognized token succeeds; a garbage token
fails with the naming error. -/
theorem claim_C5_witness :
    (toLowerStr "Clinical" = "clinical" ∨ toLowerStr "Clinical" = "exploratory") ∧
    (∃ r, scoreFacade [] 0 ⟨"X", 0, "ta", none, none⟩ "Clinical" = .ok r) ∧
    ¬(toLowerStr "pubmed" = "clinical" ∨ toLowerStr "pubmed" = "exploratory") ∧
    scoreFacade [] 0 ⟨"X", 0, "ta", none, none⟩ "pubmed" =
      .error (configErrorMsg "pubmed") :=
  ⟨Or.inl (by decide),
    (claim_C5 [] 0 ⟨"X", 0, "ta", none, none⟩ "Clinical").2.2 (Or.inl (by decide)),
    by decide,
    (claim_C5 [] 0 ⟨"X", 0, "ta", none, none⟩ "pubmed").2.1 (by decide)⟩

/-- C6: a journal absent from the table looks up, for any therapeutic
area, to the fixed non-zero default authority 0.30 with no guideline
presence and found=false, without raising; and scoring such an article
under any recognized use case succeeds with a score in [0,1] and an
uncertainty other than low. -/
theorem claim_C6 :
    ∀ (t : JournalTable) (now : Int) (a : ArticleFeatures) (ta uc : String)
      (w : WeightProfile),
    findRecord t a.journal_name = none →
    resolve uc = .ok w →
    (lookup t a.journal_name ta = ⟨defaultAuthority, false, false⟩ ∧
      defaultAuthority = 3 / 10 ∧ 0 < defaultAuthority) ∧
    ∃ r, scoreFacade t now a uc = .ok r ∧
      0 ≤ r.score ∧ r.score ≤ 1 ∧ r.uncertainty ≠ .low := by
  intro t now a ta uc w habs hres
  refine ⟨⟨by simp [lookup, habs], by norm_num [defaultAuthority],
    by norm_num [defaultAuthority]⟩,
    aggregate (rawFeatures t now a) w (defaultedCount t a), ?_, ?_, ?_, ?_⟩
  · simp [scoreFacade, hres]
  · exact round3_nonneg (clamp01_nonneg _)
  · exact round3_le_one (clamp01_le_one _)
  · show uncertaintyOf (defaultedCount t a) ≠ .low
    apply uncertaintyOf_ne_low
    have hfound : (lookup t a.journal_name a.therapeutic_area).found = false := by
      simp [lookup, habs]
    unfold defaultedCount
    rw [hfound]
    simp
    omega

/-- C6 witness: concrete unknown journal against the empty table. -/
theorem claim_C6_witness :
    findRecord [] (ArticleFeatures.journal_name
      ⟨"Obscure Regional Proceedings", -1460, "oncology", some true, some true⟩) = none ∧
    resolve "clinical" = .ok clinicalProfile ∧
    lookup [] "Obscure Regional Proceedings" "oncology" =
      ⟨defaultAuthority, false, false⟩ ∧
    ∃ r, scoreFacade [] 0
      ⟨"Obscure Regional Proceedings", -1460, "oncology", some true, some true⟩
      "clinical" = .ok r ∧
      0 ≤ r.score ∧ r.score ≤ 1 ∧ r.uncertainty ≠ .low := by
  have h := claim_C6 [] 0
    ⟨"Obscure Regional Proceedings", -1460, "oncology", some true, some true⟩
    "oncology" "clinical" clinicalProfile rfl rfl
  exact ⟨rfl, rfl, h.1.1, h.2⟩

/-- C9: ReliabilityBadge renders nothing whenever the score or band prop
is falsy; in particular a score of exactly 0 yields no badge even when
the band is present. -/
theorem claim_C9 :
    (∀ p : BadgeProps,
      (p.reliability_score = none ∨ p.reliability_score = some 0 ∨
        p.reliability_band = none ∨ p.reliability_band = some "") →
      ReliabilityBadge p = none) ∧
    (∀ (b : String) (u : Option String) (c : Bool),
      ReliabilityBadge ⟨some 0, some b, u, c⟩ = none) := by
  constructor
  · intro p h
    unfold ReliabilityBadge
    rcases h with h | h | h | h <;> simp [numFalsy, strFalsy, h]
  · intro b u c
    simp [ReliabilityBadge, numFalsy]

/-- C9 witness: a zero score with a present high band renders nothing. -/
theorem claim_C9_witness :
    ((⟨some 0, some "high", some "low", false⟩ : BadgeProps).reliability_score =
        none ∨
      (⟨some 0, some "high", some "low", false⟩ : BadgeProps).reliability_score =
        some 0 ∨
      (⟨some 0, some "high", some "low", false⟩ : BadgeProps).reliability_band =
        none ∨
      (⟨some 0, some "high", some "low", false⟩ : BadgeProps).reliability_band =
        some "") ∧
    ReliabilityBadge ⟨some 0, some "high", some "low", false⟩ = none :=
  ⟨Or.inr (Or.inl rfl),
    claim_C9.1 ⟨some 0, some "high", some "low", false⟩ (Or.inr (Or.inl rfl))⟩

theorem cacheLookup_cons_same {α : Type} (cache : List (List Char × α))
    (k : List Char) (v : α) : cacheLookup ((k, v) :: cache) k = some v := by
  simp [cacheLookup, List.find?]

theorem cacheLookup_cons_ne {α : Type} (cache : List (List Char × α))
    (k k2 : List Char) (v : α) (h : k ≠ k2) :
    cacheLookup ((k, v) :: cache) k2 = cacheLookup cache k2 := by
  simp [cacheLookup, List.find?, h]

/-- C4: scoring is deterministic — identical article, use case and table
snapshot yield identical results — and that purity makes the Dashboard's
memoization safe: with a server constant on equal cache keys, a
consistent cache answers every `runSearch` with exactly the fresh server
response, and stays consistent. -/
theorem claim_C4 :
    (∀ (t₁ t₂ : JournalTable) (n₁ n₂ : Int) (a₁ a₂ : ArticleFeatures)
      (u₁ u₂ : String), t₁ = t₂ → n₁ = n₂ → a₁ = a₂ → u₁ = u₂ →
      scoreFacade t₁ n₁ a₁ u₁ = scoreFacade t₂ n₂ a₂ u₂) ∧
    (∀ (α : Type) (server : SearchParams → α) (cache : List (List Char × α))
      (p : SearchParams),
      (∀ p₁ p₂, buildSearchKey p₁ = buildSearchKey p₂ → server p₁ = server p₂) →
      CacheConsistent server cache →
      (runSearchStep server cache p).1 = server p ∧
      CacheConsistent server (runSearchStep server cache p).2) := by
  constructor
  · intro t₁ t₂ n₁ n₂ a₁ a₂ u₁ u₂ ht hn ha hu
    rw [ht, hn, ha, hu]
  · intro α server cache p hserver hcons
    rcases hc : cacheLookup cache (buildSearchKey p) with _ | v
    · have hstep : runSearchStep server cache p =
          (server p, cacheInsert cache (buildSearchKey p) (server p)) := by
        unfold runSearchStep
        rw [hc]
      rw [hstep]
      refine ⟨rfl, ?_⟩
      intro q v hq
      by_cases hkey : buildSearchKey p = buildSearchKey q
      · rw [← hkey, cacheInsert, cacheLookup_cons_same] at hq
        simp only [Option.some.injEq] at hq
        rw [← hq]
        exact hserver p q hkey
      · rw [cacheInsert, cacheLookup_cons_ne _ _ _ _ hkey] at hq
        exact hcons q v hq
    · have hstep : runSearchStep server cache p = (v, cache) := by
        unfold runSearchStep
        rw [hc]
      rw [hstep]
      exact ⟨hcons p v hc, hcons⟩

/-- C4 witness: a constant server respects key equality, the empty cache
is consistent with it, and one memoized step returns the fresh response
for a concrete parameter set. -/
theorem claim_C4_witness :
    (∀ p₁ p₂ : SearchParams, buildSearchKey p₁ = buildSearchKey p₂ →
      (fun _ : SearchParams => (0 : ℕ)) p₁ =
        (fun _ : SearchParams => (0 : ℕ)) p₂) ∧
    CacheConsistent (fun _ : SearchParams => (0 : ℕ)) [] ∧
    (runSearchStep (fun _ : SearchParams => (0 : ℕ)) []
        ⟨"Oncology", 7, "clinical", "pubmed"⟩).1 = 0 :=
  ⟨fun _ _ _ => rfl,
    fun p v hq => by simp [cacheLookup] at hq,
    (claim_C4.2 ℕ (fun _ => 0) [] ⟨"Oncology", 7, "clinical", "pubmed"⟩
      (fun _ _ _ => rfl)
      (fun p v hq => by simp [cacheLookup] at hq)).1⟩

/-- C7: every search request body the Dashboard constructs carries, as
its use_case field, exactly the token the use-case toggle selects at
that moment; the initial token is the lowercase string clinical, and
every reachable token is one of the two lowercase strings clinical and
exploratory. -/
theorem claim_C7 :
    initState.useCase = "clinical" ∧
    (∀ (s : DashState) (e : DashEvent) (r : SearchRequest),
      r ∈ (dashStep s e).2 → r.use_case = (dashStep s e).1.useCase) ∧
    (∀ (s : DashState) (e : DashEvent),
      s.useCase = "clinical" ∨ s.useCase = "exploratory" →
      (dashStep s e).1.useCase = "clinical" ∨
        (dashStep s e).1.useCase = "exploratory") := by
  refine ⟨rfl, ?_, ?_⟩
  · intro s e r hr
    cases e <;>
      simp only [dashStep, runSearchRequests] at hr ⊢ <;>
      try exact absurd hr (List.not_mem_nil r)
    all_goals
      split_ifs at hr <;>
        first
          | exact absurd hr (List.not_mem_nil r)
          | (simp only [List.mem_append, List.mem_cons, List.not_mem_nil,
              or_false, or_self] at hr
             first
               | (rcases hr with rfl | rfl <;> rfl)
               | (rcases hr with rfl; rfl)
               | (subst hr; rfl))
  · intro s e h
    cases e <;> simp only [dashStep] <;> tauto

/-- C7 witness: a concrete exploratory toggle with a nonblank term
issues a request carrying the exploratory token. -/
theorem claim_C7_witness :
    (⟨"Oncology", 7, "exploratory"⟩ : SearchRequest) ∈
      (dashStep ⟨"clinical", "Oncology", 7, "pubmed"⟩
        (.toggleExploratory false)).2 ∧
    (⟨"Oncology", 7, "exploratory"⟩ : SearchRequest).use_case =
      (dashStep ⟨"clinical", "Oncology", 7, "pubmed"⟩
        (.toggleExploratory false)).1.useCase :=
  ⟨by decide, claim_C7.2.1 ⟨"clinical", "Oncology", 7, "pubmed"⟩
    (.toggleExploratory false) ⟨"Oncology", 7, "exploratory"⟩ (by decide)⟩

/-! ### Proxy header lemmas -/

theorem find?_append_of_none {α : Type} (p : α → Bool) (l₁ l₂ : List α)
    (h : ∀ e ∈ l₁, p e = false) :
    List.find? p (l₁ ++ l₂) = List.find? p l₂ := by
  induction l₁ with
  | nil => rfl
  | cons e l ih =>
    simp only [List.cons_append, List.find?, h e (List.mem_cons_self e l)]
    exact ih (fun x hx => h x (List.mem_cons_of_mem e hx))

theorem headersGet_set_same (hs : List (String × String)) (k v : String) :
    headersGet (headersSet hs k v) k = some v := by
  unfold headersGet headersSet
  rw [find?_append_of_none]
  · simp [List.find?]
  · intro e he
    simp only [List.mem_filter] at he
    simp only [decide_eq_false_iff_not]
    simpa using he.2

theorem find?_filter_of_imp {α : Type} (p q : α → Bool) (l : List α)
    (h : ∀ e, p e = true → q e = true) :
    List.find? p (l.filter q) = List.find? p l := by
  induction l with
  | nil => rfl
  | cons e l ih =>
    by_cases hq : q e = true
    · rw [List.filter_cons_of_pos hq]
      cases hpe : p e
      · simp [List.find?, hpe, ih]
      · simp [List.find?, hpe]
    · have hq' : q e = false := by simpa using hq
      rw [List.filter_cons_of_neg (by simp [hq'])]
      have hp' : p e = false := by
        cases hpe : p e
        · rfl
        · exact absurd (h e hpe) (by simp [hq'])
      simp [List.find?, hp', ih]

theorem find?_append_last_false {α : Type} (p : α → Bool) (l : List α) (x : α)
    (hx : p x = false) :
    List.find? p (l ++ [x]) = List.find? p l := by
  induction l with
  | nil => simp [List.find?, hx]
  | cons e l ih =>
    cases hpe : p e
    · simp [List.find?, hpe, ih]
    · simp [List.find?, hpe]

theorem headersGet_set_ne (hs : List (String × String)) (k k2 v : String)
    (h : toLowerStr k2 ≠ toLowerStr k) :
    headersGet (headersSet hs k v) k2 = headersGet hs k2 := by
  unfold headersGet headersSet
  rw [find?_append_last_false _ _ _
      (by simp only [decide_eq_false_iff_not]; exact fun hh => h hh.symm),
    find?_filter_of_imp]
  intro e he
  simp only [decide_eq_true_eq] at he
  simp only [decide_eq_true_eq]
  rw [he]
  exact h

theorem xEdgeAuth_of_buildUpstreamHeaders (req : ProxyRequest) (secret : String) :
    headersGet (buildUpstreamHeaders req secret) "X-Edge-Auth" = some secret := by
  unfold buildUpstreamHeaders
  rw [headersGet_set_ne _ _ _ _ (by decide), headersGet_set_ne _ _ _ _ (by decide)]
  exact headersGet_set_same _ _ _

/-- C10: when either environment variable is unset the proxy answers 500
"Server misconfiguration" and issues no upstream request; every upstream
request it does issue carries the X-Edge-Auth header set to the
EDGE_SECRET value. -/
theorem claim_C10 :
    (∀ (env : ProxyEnv) (req : ProxyRequest),
      env.BACKEND_BASE = none ∨ env.EDGE_SECRET = none →
      handler env req = .respond 500 "Server misconfiguration") ∧
    (∀ (env : ProxyEnv) (req : ProxyRequest) (u : UpstreamRequest),
      handler env req = .forward u →
      headersGet u.headers "X-Edge-Auth" = env.EDGE_SECRET) := by
  constructor
  · intro env req h
    unfold handler
    rcases h with h | h <;> rw [h] <;> simp [envTruthy]
  · intro env req u h
    rcases env with ⟨bb, es⟩
    rcases bb with _ | base
    · simp [handler, envTruthy] at h
    · rcases es with _ | secret
      · simp [handler, envTruthy] at h
      · by_cases hb : base = ""
        · simp [handler, envTruthy, hb] at h
        · by_cases hsec : secret = ""
          · simp [handler, envTruthy, hsec] at h
          · have hred : handler ⟨some base, some secret⟩ req =
                .forward ⟨destinationUrl base req.pathSegs req.url, req.method,
                  buildUpstreamHeaders req secret⟩ := by
              simp [handler, envTruthy, hb, hsec]
            rw [hred] at h
            have h4 := ProxyOutcome.forward.inj h
            rw [← h4]
            exact xEdgeAuth_of_buildUpstreamHeaders req secret

/-- C10 witness: an unset secret yields the 500 response; a configured
environment forwards with the injected header. -/
theorem claim_C10_witness :
    ((⟨some "https://backend", none⟩ : ProxyEnv).BACKEND_BASE = none ∨
      (⟨some "https://backend", none⟩ : ProxyEnv).EDGE_SECRET = none) ∧
    handler ⟨some "https://backend", none⟩ ⟨"GET", "/api/articles", [], ["articles"]⟩ =
      .respond 500 "Server misconfiguration" ∧
    handler ⟨some "https://backend", some "s3cret"⟩
        ⟨"GET", "/api/articles", [], ["articles"]⟩ =
      .forward ⟨"https://backend/articles", "GET",
        [("x-edge-auth", "s3cret"), ("x-forwarded-proto", "https"),
          ("x-forwarded-for", "unknown")]⟩ ∧
    headersGet [("x-edge-auth", "s3cret"), ("x-forwarded-proto", "https"),
        ("x-forwarded-for", "unknown")] "X-Edge-Auth" =
      (⟨some "https://backend", some "s3cret"⟩ : ProxyEnv).EDGE_SECRET := by
  have hfwd : handler ⟨some "https://backend", some "s3cret"⟩
      ⟨"GET", "/api/articles", [], ["articles"]⟩ =
      .forward ⟨"https://backend/articles", "GET",
        [("x-edge-auth", "s3cret"), ("x-forwarded-proto", "https"),
          ("x-forwarded-for", "unknown")]⟩ := by decide
  exact ⟨Or.inr rfl,
    claim_C10.1 ⟨some "https://backend", none⟩
      ⟨"GET", "/api/articles", [], ["articles"]⟩ (Or.inr rfl),
    hfwd,
    claim_C10.2 ⟨some "https://backend", some "s3cret"⟩
      ⟨"GET", "/api/articles", [], ["articles"]⟩ _ hfwd⟩

/-! ### Cache-key decoding lemmas -/

theorem parseLit_self (lit s : List Char) : parseLit lit (lit ++ s) = some s := by
  induction lit with
  | nil => rfl
  | cons c cs ih => simp [parseLit, ih]

theorem parse_escStr (s rest : List Char) :
    parseJsonStr (escStr s ++ '"' :: rest) = some (s, rest) := by
  unfold parseJsonStr
  induction s with
  | nil => rfl
  | cons c s ih =>
    by_cases h1 : c = '"'
    · subst h1
      simp [escStr, escChar, parseJsonStrAux, ih]
    · by_cases h2 : c = '\\'
      · subst h2
        simp [escStr, escChar, parseJsonStrAux, ih]
      · simp [escStr, escChar, parseJsonStrAux, h1, h2, ih]

theorem natDigitsNE_lt (n : ℕ) : ∀ d ∈ natDigitsNE n, d < 10 := by
  intro d hd
  unfold natDigitsNE at hd
  split_ifs at hd with h0
  · simp only [List.mem_singleton] at hd
    omega
  · exact Nat.digits_lt_base (by norm_num) hd

theorem digitChar_ne_comma {d : ℕ} (h : d < 10) : digitChar d ≠ ',' := by
  interval_cases d <;> decide

theorem natToString_ne_comma (n : ℕ) : ∀ c ∈ natToString n, c ≠ ',' := by
  intro c hc
  unfold natToString at hc
  rw [List.mem_reverse, List.mem_map] at hc
  obtain ⟨d, hd, rfl⟩ := hc
  exact digitChar_ne_comma (natDigitsNE_lt n d hd)

theorem takeWhileNE_comma (xs l : List Char) (hxs : ∀ x ∈ xs, x ≠ ',') :
    (xs ++ ',' :: l).takeWhile (fun c => c ≠ ',') = xs := by
  induction xs with
  | nil => simp [List.takeWhile_cons]
  | cons c cs ih =>
    have hcp : ¬c = ',' := hxs c (List.mem_cons_self c cs)
    have hsub := ih (fun x hx => hxs x (List.mem_cons_of_mem c hx))
    simp [List.takeWhile_cons, hcp]
    simpa [ne_eq, decide_not] using hsub

theorem dropWhileNE_comma (xs l : List Char) (hxs : ∀ x ∈ xs, x ≠ ',') :
    (xs ++ ',' :: l).dropWhile (fun c => c ≠ ',') = ',' :: l := by
  induction xs with
  | nil => simp [List.dropWhile_cons]
  | cons c cs ih =>
    have hcp : ¬c = ',' := hxs c (List.mem_cons_self c cs)
    have hsub := ih (fun x hx => hxs x (List.mem_cons_of_mem c hx))
    simp [List.dropWhile_cons, hcp]
    simpa [ne_eq, decide_not] using hsub

theorem parseNum_digits_litUC (n : ℕ) (X : List Char) :
    parseNum (natToString n ++ (litUC ++ X)) = (natToString n, litUC ++ X) := by
  have h : litUC ++ X = ',' :: ("\"use_case\":\"".data ++ X) := rfl
  rw [h]
  unfold parseNum
  rw [takeWhileNE_comma _ _ (natToString_ne_comma n),
    dropWhileNE_comma _ _ (natToString_ne_comma n)]

theorem parseKey_buildSearchKey (p : SearchParams) :
    parseKey (buildSearchKey p) =
      some ((toLowerStr (trimStr p.therapeutic_area)).data,
        natToString p.days_back, p.use_case.data, p.search_mode.data) := by
  have hb : buildSearchKey p =
      litTA ++ (escStr (toLowerStr (trimStr p.therapeutic_area)).data ++
        '"' :: (litDB ++ (natToString p.days_back ++ (litUC ++
          (escStr p.use_case.data ++ '"' :: (litSM ++
            (escStr p.search_mode.data ++ '"' :: ['\x7d']))))))) := by
    simp only [buildSearchKey, List.append_assoc, List.cons_append]
    rfl
  rw [hb]
  unfold parseKey
  rw [parseLit_self]
  dsimp only
  rw [parse_escStr]
  dsimp only
  rw [parseLit_self]
  dsimp only
  rw [parseNum_digits_litUC]
  dsimp only
  rw [parseLit_self]
  dsimp only
  rw [parse_escStr]
  dsimp only
  rw [parseLit_self]
  dsimp only
  rw [parse_escStr]

theorem strData_inj {a b : String} (h : a.data = b.data) : a = b := by
  cases a
  cases b
  exact congrArg String.mk h

theorem digitChar_inj {a b : ℕ} (ha : a < 10) (hb : b < 10)
    (h : digitChar a = digitChar b) : a = b := by
  interval_cases a <;> interval_cases b <;> first | rfl | exact absurd h (by decide)

theorem mapDigitChar_inj :
    ∀ l₁ l₂ : List ℕ, (∀ d ∈ l₁, d < 10) → (∀ d ∈ l₂, d < 10) →
      l₁.map digitChar = l₂.map digitChar → l₁ = l₂ := by
  intro l₁
  induction l₁ with
  | nil =>
    intro l₂ _ _ h
    cases l₂ with
    | nil => rfl
    | cons b m => simp at h
  | cons a l ih =>
    intro l₂ h1 h2 h
    cases l₂ with
    | nil => simp at h
    | cons b m =>
      simp only [List.map, List.cons.injEq] at h
      have hab : a = b :=
        digitChar_inj (h1 a (List.mem_cons_self a l))
          (h2 b (List.mem_cons_self b m)) h.1
      rw [hab, ih m (fun d hd => h1 d (List.mem_cons_of_mem a hd))
        (fun d hd => h2 d (List.mem_cons_of_mem b hd)) h.2]

theorem ofDigits_natDigitsNE (n : ℕ) : Nat.ofDigits 10 (natDigitsNE n) = n := by
  unfold natDigitsNE
  split_ifs with h
  · subst h
    simp [Nat.ofDigits]
  · exact Nat.ofDigits_digits 10 n

theorem natToString_inj {m n : ℕ} (h : natToString m = natToString n) : m = n := by
  unfold natToString at h
  have h2 := List.reverse_injective h
  have h3 := mapDigitChar_inj _ _ (natDigitsNE_lt m) (natDigitsNE_lt n) h2
  calc m = Nat.ofDigits 10 (natDigitsNE m) := (ofDigits_natDigitsNE m).symm
    _ = Nat.ofDigits 10 (natDigitsNE n) := by rw [h3]
    _ = n := ofDigits_natDigitsNE n

/-- C8: the Dashboard cache key determines all four normalized search
parameters — in particular the use_case token — so entries stored for
one use case are never returned for the other: a clinical-keyed entry
and an exploratory-keyed lookup can never share a key. -/
theorem claim_C8 :
    (∀ p q : SearchParams, buildSearchKey p = buildSearchKey q →
      toLowerStr (trimStr p.therapeutic_area) =
        toLowerStr (trimStr q.therapeutic_area) ∧
      p.days_back = q.days_back ∧ p.use_case = q.use_case ∧
      p.search_mode = q.search_mode) ∧
    (∀ p q : SearchParams, p.use_case = "clinical" →
      q.use_case = "exploratory" → buildSearchKey p ≠ buildSearchKey q) := by
  have main : ∀ p q : SearchParams, buildSearchKey p = buildSearchKey q →
      toLowerStr (trimStr p.therapeutic_area) =
        toLowerStr (trimStr q.therapeutic_area) ∧
      p.days_back = q.days_back ∧ p.use_case = q.use_case ∧
      p.search_mode = q.search_mode := by
    intro p q h
    have hp := parseKey_buildSearchKey p
    rw [h, parseKey_buildSearchKey q] at hp
    simp only [Option.some.injEq, Prod.mk.injEq] at hp
    obtain ⟨hta, hdb, huc, hsm⟩ := hp
    exact ⟨(strData_inj hta).symm, (natToString_inj hdb).symm,
      (strData_inj huc).symm, (strData_inj hsm).symm⟩
  refine ⟨main, ?_⟩
  intro p q hp hq hkey
  have h := (main p q hkey).2.2.1
  rw [hp, hq] at h
  exact absurd h (by decide)

/-- C8 witness: identical searches under the two use cases produce
different cache keys. -/
theorem claim_C8_witness :
    (⟨"Oncology", 7, "clinical", "pubmed"⟩ : SearchParams).use_case =
      "clinical" ∧
    (⟨"Oncology", 7, "exploratory", "pubmed"⟩ : SearchParams).use_case =
      "exploratory" ∧
    buildSearchKey ⟨"Oncology", 7, "clinical", "pubmed"⟩ ≠
      buildSearchKey ⟨"Oncology", 7, "exploratory", "pubmed"⟩ :=
  ⟨rfl, rfl, claim_C8.2 ⟨"Oncology", 7, "clinical", "pubmed"⟩
    ⟨"Oncology", 7, "exploratory", "pubmed"⟩ rfl rfl⟩

end MSL
